import Mathlib

/-!
# Verification of the MongoKit manager adapter

A shallow embedding of `ripozo_mongokit/mongokitmanager.py` and
`ripozo_mongokit/fields.py`: the query translation (`_get_query`,
`_is_regex_field`, `_get_regex_query`), the serialization family
(`_serialize_model_helper`, `_replace_id`, `_remove_excl_fields`,
`_serialize_model`), the sort field translation (`SortField._translate`),
and the paginating list retrieval (`retrieve_list`) together with the
`update` operation.

Python values returned by / passed to the manager are modelled by the
inductive type `Value`; Python dictionaries are association lists in
insertion order (no duplicate keys arise in the modelled code paths);
machine integers are `Int` (Python ints are unbounded); exceptions are
modelled with `Except PyError`.
-/

set_option autoImplicit false

namespace RipozoMongokit

/-- The Python exception classes that the modelled code can raise or
catch.  `bson.errors.InvalidId` is handled separately inside
`objectIdOfValue` because `_get_query` catches it locally. -/
inductive PyError where
  | typeError
  | valueError
  | zeroDivisionError
  | attributeError
  deriving DecidableEq, Repr

/-- A JSON-ish Python runtime value as it flows through the manager:
`None`, ints, strings, booleans, `bson.ObjectId` (carrying its
24-hex-character string form), datetime-like objects (carrying their
`str()` form), lists, tuples, sets and dicts.  Sets and tuples keep a
list of elements in iteration order. -/
inductive Value where
  | vNull
  | vInt (n : Int)
  | vStr (s : String)
  | vBool (b : Bool)
  | vObjectId (hex : String)
  | vDateTime (s : String)
  | vList (xs : List Value)
  | vTuple (xs : List Value)
  | vSet (xs : List Value)
  | vDict (entries : List (String × Value))
  deriving Inhabited

/-- Python truthiness (`bool(v)`) for the modelled values. -/
def pyTruthy : Value → Bool
  | .vNull => false
  | .vInt n => n != 0
  | .vStr s => s != ""
  | .vBool b => b
  | .vObjectId _ => true
  | .vDateTime _ => true
  | .vList xs => !xs.isEmpty
  | .vTuple xs => !xs.isEmpty
  | .vSet xs => !xs.isEmpty
  | .vDict d => !d.isEmpty

/-- `v.isDict` holds when the value is a Python dict. -/
def Value.isDict : Value → Bool
  | .vDict _ => true
  | _ => false

/-! ## Python string primitives

Structural (fuel-free where possible) implementations so that concrete
claims evaluate by `rfl`/`decide`. -/

/-- `s.endswith(suffix)`. -/
def pyEndsWith (s suffix : String) : Bool :=
  suffix.data.isSuffixOf s.data

/-- `s.lower()` (ASCII, which is all the modelled code uses). -/
def pyLower (s : String) : String :=
  ⟨s.data.map Char.toLower⟩

/-- Helper for `pySplitComma`: accumulates the current chunk (reversed). -/
def splitCommaAux : List Char → List Char → List (List Char)
  | [], cur => [cur.reverse]
  | c :: rest, cur =>
    if c = ',' then cur.reverse :: splitCommaAux rest []
    else splitCommaAux rest (c :: cur)

/-- `s.split(',')`.  Like Python, `"".split(',') = [""]` and a string
with `k` commas yields `k + 1` chunks. -/
def pySplitComma (s : String) : List String :=
  (splitCommaAux s.data []).map fun cs => ⟨cs⟩

/-- Helper for `pyReplace` on non-empty patterns.  The fuel starts at the
input length and drops by one per step while at least one character is
consumed, so it never runs out. -/
def replaceAux (pat rep : List Char) : Nat → List Char → List Char
  | _, [] => []
  | 0, s => s
  | fuel + 1, c :: rest =>
    if pat.isPrefixOf (c :: rest) then
      rep ++ replaceAux pat rep fuel (rest.drop (pat.length - 1))
    else
      c :: replaceAux pat rep fuel rest

/-- Python `s.replace(pat, rep)`: replaces every non-overlapping
occurrence of `pat`, scanning left to right.  For an empty pattern
Python inserts `rep` before every character and at the end. -/
def pyReplace (s pat rep : String) : String :=
  if pat.data.isEmpty then
    ⟨rep.data ++ s.data.flatMap fun c => c :: rep.data⟩
  else
    ⟨replaceAux pat.data rep.data s.data.length s.data⟩

/-- `str(v)` for the value shapes that reach it in the modelled code
(the regex clause applies `str` to the filter value; `_replace_id`
applies `str` to the id value). -/
def pyStr : Value → String
  | .vNull => "None"
  | .vInt n => toString n
  | .vStr s => s
  | .vBool true => "True"
  | .vBool false => "False"
  | .vObjectId hex => hex
  | .vDateTime s => s
  | .vList _ => "<list>"
  | .vTuple _ => "<tuple>"
  | .vSet _ => "<set>"
  | .vDict _ => "<dict>"

/-! ## Python dict operations on association lists

Keys are unique in every dict the modelled code builds or receives, and
the operations below agree with Python's on such lists (value update in
place, insertion of a new key at the end, `pop`/`del` removal). -/

/-- `k in d` for a dict. -/
def dictContains (d : List (String × Value)) (k : String) : Bool :=
  d.any fun p => p.1 == k

/-- `d.get(k)` — first binding of `k`. -/
def dictGet (d : List (String × Value)) (k : String) : Option Value :=
  match d with
  | [] => none
  | (k', v) :: rest => if k' == k then some v else dictGet rest k

/-- `d[k] = v`: overwrite in place when the key exists, else append. -/
def dictSet (d : List (String × Value)) (k : String) (v : Value) :
    List (String × Value) :=
  if dictContains d k then
    d.map fun p => if p.1 == k then (k, v) else p
  else
    d ++ [(k, v)]

/-- `del d[k]` / the removal part of `d.pop(k)`. -/
def dictRemove (d : List (String × Value)) (k : String) :
    List (String × Value) :=
  d.filter fun p => p.1 != k

/-- `d.pop(k, default)`: the value (or default) and the shrunken dict. -/
def dictPopD (d : List (String × Value)) (k : String) (dflt : Value) :
    Value × List (String × Value) :=
  ((dictGet d k).getD dflt, dictRemove d k)

/-- `d.update(other)`: fold the bindings of `other` into `d`. -/
def dictUpdate (d other : List (String × Value)) : List (String × Value) :=
  other.foldl (fun acc p => dictSet acc p.1 p.2) d

/-- The keys of a dict, in order. -/
def dictKeys (d : List (String × Value)) : List String :=
  d.map Prod.fst

/-! ## Manager configuration

The class-level attributes of `MongoKitManager` that the modelled
methods read.  `all_fields` is computed as in `__init__`:
`self.all_fields = (len(self.exclude_fields) == 0)`. -/

structure Config where
  id_field : String
  exclude_fields : List String
  regex_suffix : String
  page_query_arg : String
  page_size_query_arg : String
  sort_query_arg : String
  default_page_size : Int

/-- `self.all_fields` as set in `__init__`. -/
def Config.all_fields (c : Config) : Bool :=
  c.exclude_fields.length == 0

/-- The class-level defaults of `MongoKitManager`. -/
def defaultConfig : Config :=
  { id_field := "_id"
    exclude_fields := []
    regex_suffix := "Regex"
    page_query_arg := "page"
    page_size_query_arg := "size"
    sort_query_arg := "sort"
    default_page_size := 10 }

/-! ## `bson.ObjectId` construction -/

/-- Outcome of `ObjectId(value)`. -/
inductive OidResult where
  | parsed (hex : String)
  | invalidId
  | typeErr
  deriving DecidableEq, Repr

/-- Is `c` a hexadecimal digit (both cases, as `binascii.unhexlify`
accepts)? -/
def isHexDigit (c : Char) : Bool :=
  c.isDigit || ('a' ≤ c && c ≤ 'f') || ('A' ≤ c && c ≤ 'F')

/-- `ObjectId(value)` from `bson`: an existing `ObjectId` is accepted;
a string must be 24 hex characters (parsed to lowercase hex bytes) or
`InvalidId` is raised; `None` generates a fresh identifier (modelled by
a fixed placeholder hex string — no claim exercises this branch); any
other type raises `TypeError`, which `_get_query` does *not* catch. -/
def objectIdOfValue : Value → OidResult
  | .vObjectId hex => .parsed hex
  | .vStr s =>
    if s.length = 24 && s.data.all isHexDigit then .parsed (pyLower s)
    else .invalidId
  | .vNull => .parsed "000000000000000000000000"
  | _ => .typeErr

/-! ## Query translation: `_get_query`, `_is_regex_field`, `_get_regex_query` -/

/-- `MongoKitManager._is_regex_field`: `field.endswith(cls.regex_suffix)`. -/
def is_regex_field (cfg : Config) (field : String) : Bool :=
  pyEndsWith field cfg.regex_suffix

/-- `MongoKitManager._get_regex_query`: note that the key is rewritten
with `field.replace(cls.regex_suffix, '')`, i.e. Python's `str.replace`,
which removes *every* occurrence of the suffix, not only the final one. -/
def get_regex_query (cfg : Config) (field : String) (value : Value) :
    List (String × Value) :=
  [(pyReplace field cfg.regex_suffix "",
    .vDict [("$regex", .vStr (pyStr value)), ("$options", .vStr "i")])]

/-- The `try: query['_id'] = ObjectId(value) except InvalidId:
query['_id'] = value` block of `_get_query`: the parsed identifier when
the value parses, the raw value when parsing raises `InvalidId`, and an
uncaught `TypeError` for values `ObjectId` rejects outright. -/
def id_query_value (value : Value) : Except PyError Value :=
  match objectIdOfValue value with
  | .parsed hex => pure (.vObjectId hex)
  | .invalidId => pure value
  | .typeErr => throw PyError.typeError

mutual

/-- `MongoKitManager._get_query`.  A dict input is translated entry by
entry into the accumulated query; a non-dict input passes through when
truthy and becomes the empty query otherwise
(`query = lookup_keys if lookup_keys else {}`). -/
def get_query (cfg : Config) (lookup : Value) : Except PyError Value :=
  match lookup with
  | .vDict entries => do
    let q ← get_query_entries cfg entries []
    pure (.vDict q)
  | v => pure (if pyTruthy v then v else .vDict [])
termination_by sizeOf lookup
decreasing_by all_goals simp_wf

/-- The `for key, value in six.iteritems(lookup_keys)` loop of
`_get_query`, threading the accumulated `query` dict. -/
def get_query_entries (cfg : Config) :
    List (String × Value) → List (String × Value) →
    Except PyError (List (String × Value))
  | [], acc => pure acc
  | (key, value) :: rest, acc => do
    let acc ←
      if key = cfg.id_field then do
        let idv ← id_query_value value
        pure (dictSet acc "_id" idv)
      else if is_regex_field cfg key then
        pure (dictUpdate acc (get_regex_query cfg key value))
      else do
        let v' ← get_query_value cfg value
        pure (dictSet acc key v')
    get_query_entries cfg rest acc
termination_by l _ => sizeOf l
decreasing_by all_goals (simp_wf <;> omega)

/-- The non-id, non-regex arm of the loop body: a list/tuple/set value
becomes an `$in` clause over recursively translated elements, a dict
value is recursively translated, and any other value is copied
verbatim. -/
def get_query_value (cfg : Config) (value : Value) : Except PyError Value :=
  match value with
  | .vList xs => do
    let ys ← get_query_list cfg xs
    pure (.vDict [("$in", .vList ys)])
  | .vTuple xs => do
    let ys ← get_query_list cfg xs
    pure (.vDict [("$in", .vList ys)])
  | .vSet xs => do
    let ys ← get_query_list cfg xs
    pure (.vDict [("$in", .vList ys)])
  | .vDict d => do
    let q ← get_query_entries cfg d []
    pure (.vDict q)
  | v => pure v
termination_by sizeOf value
decreasing_by all_goals simp_wf

/-- `[cls._get_query(v) for v in value]`. -/
def get_query_list (cfg : Config) : List Value → Except PyError (List Value)
  | [] => pure []
  | v :: rest => do
    let v' ← get_query cfg v
    let rest' ← get_query_list cfg rest
    pure (v' :: rest')
termination_by l => sizeOf l
decreasing_by all_goals (simp_wf <;> omega)

end

/-! ## Serialization: `_serialize_model_helper`, `_replace_id`,
`_remove_excl_fields`, `_serialize_model` -/

mutual

/-- `MongoKitManager._serialize_model_helper`: `None` stays `None`,
`ObjectId` and temporal values become their string form, sequences
become lists of serialized elements, dict values are serialized in
place, every other scalar passes through. -/
def serialize_model_helper : Value → Value
  | .vNull => .vNull
  | .vObjectId hex => .vStr hex
  | .vList xs => .vList (serialize_value_list xs)
  | .vSet xs => .vList (serialize_value_list xs)
  | .vTuple xs => .vList (serialize_value_list xs)
  | .vDateTime s => .vStr s
  | .vDict d => .vDict (serialize_entry_list d)
  | v => v
termination_by v => sizeOf v
decreasing_by all_goals simp_wf

/-- `[self._serialize_model_helper(m) for m in model]`. -/
def serialize_value_list : List Value → List Value
  | [] => []
  | v :: rest => serialize_model_helper v :: serialize_value_list rest
termination_by l => sizeOf l
decreasing_by all_goals (simp_wf <;> omega)

/-- The `for key, value in six.iteritems(model)` loop of the helper,
overwriting each value with its serialized form. -/
def serialize_entry_list : List (String × Value) → List (String × Value)
  | [] => []
  | (k, v) :: rest => (k, serialize_model_helper v) :: serialize_entry_list rest
termination_by l => sizeOf l
decreasing_by all_goals (simp_wf <;> omega)

end

/-- Is `pat` a contiguous sublist of the second argument (Python's
substring containment `sub in s`)? -/
def listIsInfixOf (pat : List Char) : List Char → Bool
  | [] => pat.isEmpty
  | c :: rest => pat.isPrefixOf (c :: rest) || listIsInfixOf pat rest

/-- Does a Python list/tuple/set of values contain an element equal to
the string `k` (as `'_id' in obj` tests for sequences)?  Only a string
element can compare equal to a string. -/
def listContainsStr (xs : List Value) (k : String) : Bool :=
  xs.any fun v =>
    match v with
    | .vStr s => s == k
    | _ => false

/-- `MongoKitManager._replace_id`:
`if self.id_field and '_id' in obj: obj[self.id_field] = str(obj.pop('_id'))`.
On a dict this renames `'_id'` to `id_field` (string-coercing the
value).  On `None` and other non-iterable values the membership test
`'_id' in obj` raises `TypeError`; on a string it is a substring test
(and a hit leads to `AttributeError` from `.pop`); on sequences a hit
leads to an error from `.pop('_id')`.  A falsy `id_field`
short-circuits everything. -/
def replace_id (cfg : Config) (obj : Value) : Except PyError Value :=
  if cfg.id_field == "" then pure obj
  else
    match obj with
    | .vDict d =>
      if dictContains d "_id" then
        let idv := (dictGet d "_id").getD .vNull
        pure (.vDict (dictSet (dictRemove d "_id") cfg.id_field
          (.vStr (pyStr idv))))
      else pure (.vDict d)
    | .vStr s =>
      if listIsInfixOf "_id".data s.data then throw .attributeError else pure obj
    | .vList xs =>
      if listContainsStr xs "_id" then throw .typeError else pure obj
    | .vTuple xs =>
      if listContainsStr xs "_id" then throw .attributeError else pure obj
    | .vSet xs =>
      if listContainsStr xs "_id" then throw .attributeError else pure obj
    | _ => throw .typeError

/-- `MongoKitManager._remove_excl_fields`: when `all_fields` is false,
delete every configured excluded field that is present.  Mirrors the
same membership-test behaviour as `_replace_id` for non-dict values
(`del obj[field]` raises `TypeError` on sequences and strings). -/
def remove_excl_fields (cfg : Config) (obj : Value) : Except PyError Value :=
  if cfg.all_fields then pure obj
  else
    match obj with
    | .vDict d =>
      pure (.vDict (d.filter fun p => !(cfg.exclude_fields.contains p.1)))
    | .vStr s =>
      if cfg.exclude_fields.any (fun f => listIsInfixOf f.data s.data) then
        throw .typeError
      else pure obj
    | .vList xs =>
      if cfg.exclude_fields.any (fun f => listContainsStr xs f) then
        throw .typeError
      else pure obj
    | .vTuple xs =>
      if cfg.exclude_fields.any (fun f => listContainsStr xs f) then
        throw .typeError
      else pure obj
    | .vSet xs =>
      if cfg.exclude_fields.any (fun f => listContainsStr xs f) then
        throw .typeError
      else pure obj
    | _ => throw .typeError

/-- The `for obj in model` loop at the top of `_serialize_model`:
`_replace_id` then `_remove_excl_fields` applied to each element of a
top-level sequence. -/
def prep_sequence (cfg : Config) : List Value → Except PyError (List Value)
  | [] => pure []
  | o :: rest => do
    let o ← replace_id cfg o
    let o ← remove_excl_fields cfg o
    let rest ← prep_sequence cfg rest
    pure (o :: rest)

/-- `MongoKitManager._serialize_model`: a top-level `None` becomes the
empty dict; a top-level sequence has id-replacement and exclusion
applied to each element; any other value has them applied to itself;
then the recursive helper serializes the result. -/
def serialize_model (cfg : Config) (model : Value) : Except PyError Value :=
  match model with
  | .vNull => pure (.vDict [])
  | .vList xs => do
    let xs ← prep_sequence cfg xs
    pure (serialize_model_helper (.vList xs))
  | .vSet xs => do
    let xs ← prep_sequence cfg xs
    pure (serialize_model_helper (.vSet xs))
  | .vTuple xs => do
    let xs ← prep_sequence cfg xs
    pure (serialize_model_helper (.vTuple xs))
  | m => do
    let m ← replace_id cfg m
    let m ← remove_excl_fields cfg m
    pure (serialize_model_helper m)

/-! ## `SortField._translate` and `IntegerField` translation -/

/-- `ripozo.resources.fields.validations.translate_iterable_to_single`:
a non-empty list or tuple collapses to its first element (external
helper used by the field translators). -/
def translate_iterable_to_single : Value → Value
  | .vList (x :: _) => x
  | .vTuple (x :: _) => x
  | v => v

/-- `SortField._translate` from `ripozo_mongokit/fields.py`: a string
is lowercased and split on `','`; exactly two chunks yield the pair
`(field, -1 if direction == 'asc' else 1)`; `None` passes through;
everything else raises `ValueError`. -/
def sortFieldTranslate (obj : Value) : Except PyError (Option (String × Int)) :=
  let obj := translate_iterable_to_single obj
  match obj with
  | .vStr s =>
    match pySplitComma (pyLower s) with
    | [field, dir] => pure (some (field, if dir == "asc" then -1 else 1))
    | _ => throw .valueError
  | .vNull => pure none
  | _ => throw .valueError

/-- `ripozo`'s `IntegerField.translate` as used in `retrieve_list`
(no validation pass): `None` passes through, ints stay, strings are
parsed with `int(...)`, anything else raises a translation error
(modelled as `valueError`). -/
def integerFieldTranslate (obj : Value) : Except PyError (Option Int) :=
  let obj := translate_iterable_to_single obj
  match obj with
  | .vNull => pure none
  | .vInt n => pure (some n)
  | .vBool b => pure (some (if b then 1 else 0))
  | .vStr s =>
    match s.toInt? with
    | some n => pure (some n)
    | none => throw .valueError
  | _ => throw .valueError

/-! ## `retrieve_list` -/

/-- `int(math.ceil(a / b))` for Python ints under
`from __future__ import division` (true division), with the quotient
modelled exactly: the least integer that is at least `a / b`.  Only
called with `b ≠ 0` (a zero divisor raises before this is reached).
`Int` division here is Euclidean division, which is floor division
whenever the divisor is positive, so `-((-a) / b)` is the ceiling. -/
def intCeilDiv (a b : Int) : Int :=
  if 0 < b then -((-a) / b) else -(a / (-b))

/-- One pagination link:
`{self.page_query_arg: page, self.page_size_query_arg: size}`. -/
def linkDict (cfg : Config) (page size : Int) : Value :=
  .vDict (dictSet (dictSet [] cfg.page_query_arg (.vInt page))
    cfg.page_size_query_arg (.vInt size))

/-- `cursor.skip(query_skip).limit(query_limit)` from the driver: a
negative skip raises `ValueError`; `limit(0)` means no limit; a
non-zero limit returns at most `|limit|` documents. -/
def applySkipLimit (skip limit : Int) (l : List Value) :
    Except PyError (List Value) :=
  if skip < 0 then throw .valueError
  else
    pure (if limit = 0 then l.drop skip.toNat
          else (l.drop skip.toNat).take limit.natAbs)

/-- The fields of the structure `retrieve_list` returns: the serialized
page data, the page descriptor values and the four optional links
(`None` links are `none`). -/
structure PageResult where
  data : Value
  size : Int
  totalElements : Int
  totalPages : Int
  number : Int
  next_link : Option Value
  prev_link : Option Value
  first_link : Option Value
  last_link : Option Value

/-- `MongoKitManager.retrieve_list`.  The external collection is
modelled by the list `docs` of stored documents together with the
driver's matching relation `matches` (`collection.find`) and sorting
function `applySort` (`cursor.sort`); `cursor.count()` counts every
document matching the query, before skip/limit (and unaffected by
sort).  `filters` is the inbound filter dict and `kwargs_query` the
optional raw `'query'` override from `kwargs`. -/
def retrieve_list (cfg : Config) (docs : List Value)
    (finds : Value → Value → Bool)
    (applySort : String × Int → List Value → List Value)
    (filters : List (String × Value))
    (kwargs_query : Option (List (String × Value))) :
    Except PyError PageResult := do
  let (sizeRaw, filters) :=
    dictPopD filters cfg.page_size_query_arg (.vInt cfg.default_page_size)
  let psO ← integerFieldTranslate sizeRaw
  let (pageRaw, filters) := dictPopD filters cfg.page_query_arg (.vInt 0)
  let pnO ← integerFieldTranslate pageRaw
  let (sortRaw, filters) := dictPopD filters cfg.sort_query_arg .vNull
  let sort_tuple ← sortFieldTranslate sortRaw
  let query0 ← get_query cfg (.vDict filters)
  let query :=
    match query0, kwargs_query with
    | .vDict q, some kw => Value.vDict (dictUpdate q kw)
    | q, _ => q
  let matched := docs.filter (finds query)
  let count : Int := matched.length
  match psO with
  | none => throw .typeError
  | some page_size =>
    if page_size = 0 then throw .zeroDivisionError
    else
      let page_count := intCeilDiv count page_size
      match pnO with
      | none => throw .typeError
      | some page_number =>
        let (query_skip, query_limit) :=
          if page_size != 0 && page_number != 0 then
            (page_size * page_number, page_size)
          else (0, page_size)
        let next_link :=
          if count > page_size * (page_number + 1) then
            some (linkDict cfg (page_number + 1) page_size)
          else none
        let prev_link :=
          if page_number > 0 then
            some (linkDict cfg (page_number - 1) page_size)
          else none
        let first_link :=
          if page_number > 0 then some (linkDict cfg 0 page_size) else none
        let last_link :=
          if page_number ≠ page_count - 1 then
            some (linkDict cfg (page_count - 1) page_size)
          else none
        let sorted :=
          match sort_tuple with
          | some st => applySort st matched
          | none => matched
        let sliced ← applySkipLimit query_skip query_limit sorted
        let values ← serialize_model cfg (.vList sliced)
        pure { data := values, size := page_size, totalElements := count,
               totalPages := page_count, number := page_number,
               next_link := next_link, prev_link := prev_link,
               first_link := first_link, last_link := last_link }

/-- The pair of dicts `retrieve_list` literally returns:
`(dict(data=…, page_object=…), dict(links=…))`, absent links carried
as `None`. -/
def retrieve_list_pair (cfg : Config) (docs : List Value)
    (finds : Value → Value → Bool)
    (applySort : String × Int → List Value → List Value)
    (filters : List (String × Value))
    (kwargs_query : Option (List (String × Value))) :
    Except PyError (Value × Value) := do
  let r ← retrieve_list cfg docs finds applySort filters kwargs_query
  pure (.vDict [("data", r.data),
                ("page_object", .vDict [("page", .vDict
                  [("size", .vInt r.size),
                   ("totalElements", .vInt r.totalElements),
                   ("totalPages", .vInt r.totalPages),
                   ("number", .vInt r.number)])])],
        .vDict [("links", .vDict
          [("next", r.next_link.getD .vNull),
           ("prev", r.prev_link.getD .vNull),
           ("first", r.first_link.getD .vNull),
           ("last", r.last_link.getD .vNull)])])

/-! ## `update` -/

/-- `model_document.update(updates)` on a retrieved document: the
document is a dict-like object, so this is a dict merge; a non-dict
argument raises `TypeError`. -/
def applyDocUpdate (doc updates : Value) : Except PyError Value :=
  match doc, updates with
  | .vDict dd, .vDict ud => pure (.vDict (dictUpdate dd ud))
  | _, _ => throw .typeError

/-- `MongoKitManager.update(filters, updates)`: note the source builds
the find query with `self._get_query(updates)` — the `filters` argument
is never read.  Each found document is merged with `updates`, saved
(an external effect with no bearing on the returned value) and
serialized. -/
def update (cfg : Config) (docs : List Value)
    (finds : Value → Value → Bool)
    (_filters updates : Value) : Except PyError (List Value) := do
  let query ← get_query cfg updates
  let selected := docs.filter (finds query)
  selected.mapM fun d => do
    let d ← applyDocUpdate d updates
    serialize_model cfg d

/-! ## A one-cell heap for the in-place mutation claim

`_serialize_model` mutates the dict it is given and returns that same
object.  The caller's reference is modelled as an address into a heap;
`serialize_model_ref` performs what the Python method does to the heap:
it rewrites the content stored at the argument's address (the
cumulative effect of `pop`, `del` and the in-place value overwrites of
the helper) and returns the same address. -/

/-- Addresses of Python objects. -/
abbrev Addr := Nat

/-- A heap of dict objects. -/
abbrev Heap := Addr → Option Value

/-- Write `v` at address `a`. -/
def heapSet (h : Heap) (a : Addr) (v : Value) : Heap :=
  fun b => if b = a then some v else h b

/-- `_serialize_model` called on the object stored at `a`: the object's
content is replaced by its serialized form and the very same reference
is returned (no copy is made). -/
def serialize_model_ref (cfg : Config) (a : Addr) (h : Heap) :
    Except PyError (Addr × Heap) :=
  match h a with
  | none => throw .typeError
  | some m =>
    match serialize_model cfg m with
    | .ok v => pure (a, heapSet h a v)
    | .error e => throw e

/-! ## Concrete example data used by the spec scenarios -/

/-- The configuration of the spec exclusion scenario:
`id_field = "id"`, `exclude_fields = ("secret",)`. -/
def exampleConfig : Config :=
  { defaultConfig with id_field := "id", exclude_fields := ["secret"] }

/-- A configuration with a caller-facing id name, used for the in-place
mutation scenario. -/
def userIdConfig : Config :=
  { defaultConfig with id_field := "user_id", exclude_fields := ["secret"] }

/-- The entries of the spec exclusion scenario document
`{"_id": X, "name": "Joe", "secret": 1}`. -/
def exampleDoc : List (String × Value) :=
  [("_id", .vObjectId "507f191e810c19729de860ea"),
   ("name", .vStr "Joe"), ("secret", .vInt 1)]

/-- A document stored at address `0` of `exampleHeap`. -/
def mutationDoc : List (String × Value) :=
  [("_id", .vObjectId "507f191e810c19729de860ea"),
   ("secret", .vInt 1), ("x", .vInt 2)]

/-- A one-cell heap holding `mutationDoc` at address `0`. -/
def exampleHeap : Heap :=
  fun b => if b = 0 then some (.vDict mutationDoc) else none

/-! ## Reduction lemmas for the `Except` monad, used to evaluate the
embedded operations in the proofs below. -/

@[simp] theorem except_bind_ok {α β : Type} (a : α)
    (f : α → Except PyError β) :
    (Except.ok a >>= f : Except PyError β) = f a := rfl

@[simp] theorem except_bind_error {α β : Type} (e : PyError)
    (f : α → Except PyError β) :
    (Except.error e >>= f : Except PyError β) = Except.error e := rfl

@[simp] theorem except_pure_eq {α : Type} (a : α) :
    (pure a : Except PyError α) = Except.ok a := rfl

@[simp] theorem except_throw_eq {α : Type} (e : PyError) :
    (throw e : Except PyError α) = Except.error e := rfl

@[simp] theorem except_map_ok {α β : Type} (f : α → β) (a : α) :
    (f <$> (Except.ok a : Except PyError α)) = Except.ok (f a) := rfl

@[simp] theorem except_map_error {α β : Type} (f : α → β) (e : PyError) :
    (f <$> (Except.error e : Except PyError α)) = Except.error e := rfl

/-! ## List and dictionary key lemmas -/



theorem list_any_congr {α : Type} {p q : α → Bool} (l : List α)
    (h : ∀ a ∈ l, p a = q a) : l.any p = l.any q := by
  induction l with
  | nil => rfl
  | cons x rest ih =>
    simp only [List.any_cons, h x (List.mem_cons_self x rest)]
    rw [ih fun a ha => h a (List.mem_cons_of_mem x ha)]

theorem dictContains_dictSet_ne (d : List (String × Value)) (k k' : String)
    (v : Value) (h : k ≠ k') :
    dictContains (dictSet d k' v) k = dictContains d k := by
  have hkk : (k' == k) = false := by simp [Ne.symm h]
  unfold dictSet dictContains
  split
  · rw [List.any_map]
    apply list_any_congr
    intro p _
    by_cases hp : (p.1 == k') = true
    · have : p.1 = k' := by simpa using hp
      simp [Function.comp, hp, hkk, this]
    · simp [Function.comp, hp]
  · simp [List.any_append, hkk]

theorem dictContains_dictRemove_ne (d : List (String × Value)) (k k' : String)
    (h : k ≠ k') :
    dictContains (dictRemove d k') k = dictContains d k := by
  unfold dictRemove dictContains
  rw [List.any_filter]
  apply list_any_congr
  intro p _
  by_cases hp : p.1 = k
  · simp [hp, h]
  · simp [hp]

theorem dictContains_dictRemove_self (d : List (String × Value)) (k : String) :
    dictContains (dictRemove d k) k = false := by
  unfold dictRemove dictContains
  rw [List.any_filter]
  rw [show (d.any fun a => (a.1 != k) && (a.1 == k)) = d.any fun _ => false from
    list_any_congr d ?_]
  · simp
  · intro p _
    by_cases hp : p.1 = k <;> simp [hp]

theorem dictContains_filter_excl (d : List (String × Value)) (k : String)
    (excl : List String) :
    dictContains (d.filter fun p => !(excl.contains p.1)) k =
      (dictContains d k && !(excl.contains k)) := by
  unfold dictContains
  rw [List.any_filter]
  by_cases hc : excl.contains k = true
  · simp only [hc, Bool.not_true, Bool.and_false]
    rw [show (d.any fun a => !excl.contains a.1 && (a.1 == k)) = d.any fun _ => false from
      list_any_congr d ?_]
    · simp
    · intro p _
      by_cases hp : p.1 = k
      · have hm : k ∈ excl := List.elem_iff.mp hc
        simp [hp, hm]
      · simp [hp]
  · rw [Bool.not_eq_true] at hc
    simp only [hc, Bool.not_false, Bool.and_true]
    apply list_any_congr
    intro p _
    by_cases hp : p.1 = k
    · have hm : k ∉ excl := by simpa using hc
      simp [hp, hm]
    · simp [hp]

theorem dictContains_serialize_entry_list (d : List (String × Value))
    (k : String) :
    dictContains (serialize_entry_list d) k = dictContains d k := by
  induction d with
  | nil => simp [serialize_entry_list]
  | cons p rest ih =>
    obtain ⟨k', v⟩ := p
    simp only [serialize_entry_list, dictContains, List.any_cons] at *
    rw [ih]

theorem serialize_value_list_eq_map (xs : List Value) :
    serialize_value_list xs = xs.map serialize_model_helper := by
  induction xs with
  | nil => simp [serialize_value_list]
  | cons x rest ih => simp [serialize_value_list, ih]

/-! ## Shape lemmas for the serializer -/

theorem replace_id_dict (cfg : Config) (d : List (String × Value)) :
    replace_id cfg (.vDict d) =
      .ok (.vDict (if cfg.id_field ≠ "" ∧ dictContains d "_id" = true then
        dictSet (dictRemove d "_id") cfg.id_field
          (.vStr (pyStr ((dictGet d "_id").getD .vNull)))
      else d)) := by
  unfold replace_id
  by_cases h0 : cfg.id_field = ""
  · simp [h0]
  · by_cases h1 : dictContains d "_id" = true <;> simp [h0, h1]

theorem remove_excl_fields_dict (cfg : Config) (d : List (String × Value)) :
    remove_excl_fields cfg (.vDict d) =
      .ok (.vDict (if cfg.all_fields = true then d
        else d.filter fun p => !(cfg.exclude_fields.contains p.1))) := by
  unfold remove_excl_fields
  by_cases h : cfg.all_fields = true <;> simp [h]

theorem remove_excl_fields_dict_keys (cfg : Config)
    (d : List (String × Value)) :
    ∃ d', remove_excl_fields cfg (.vDict d) = .ok (.vDict d') ∧
      ∀ k, dictContains d' k =
        (dictContains d k && !(cfg.exclude_fields.contains k)) := by
  rw [remove_excl_fields_dict]
  by_cases h : cfg.all_fields = true
  · refine ⟨d, by simp [h], fun k => ?_⟩
    have hnil : cfg.exclude_fields = [] := by
      simpa [Config.all_fields, List.length_eq_zero] using h
    simp [hnil]
  · exact ⟨_, by simp [h], fun k => dictContains_filter_excl d k _⟩

/-- `_serialize_model` on a dict is exactly id-rename, then exclusion,
then the recursive helper, in that order. -/
theorem serialize_model_dict_order (cfg : Config) (d : List (String × Value)) :
    serialize_model cfg (.vDict d) = (do
      let m ← replace_id cfg (.vDict d)
      let m ← remove_excl_fields cfg m
      pure (serialize_model_helper m) : Except PyError Value) := rfl

/-- Serializing a dict never fails, and the keys of the result are those
of the input with `'_id'` renamed to `id_field` and the excluded fields
removed; every other key is untouched. -/
theorem serialize_model_dict_keys (cfg : Config) (d : List (String × Value))
    (hid : cfg.id_field ≠ "") (hid2 : cfg.id_field ≠ "_id") :
    ∃ d', serialize_model cfg (.vDict d) = .ok (.vDict d') ∧
      dictContains d' "_id" = false ∧
      (∀ f ∈ cfg.exclude_fields, dictContains d' f = false) ∧
      (∀ k, k ≠ "_id" → k ≠ cfg.id_field →
        dictContains d' k =
          (dictContains d k && !(cfg.exclude_fields.contains k))) := by
  rw [serialize_model_dict_order, replace_id_dict]
  set d₁ := (if cfg.id_field ≠ "" ∧ dictContains d "_id" = true then
    dictSet (dictRemove d "_id") cfg.id_field
      (.vStr (pyStr ((dictGet d "_id").getD .vNull)))
  else d) with hd₁
  have h₁id : dictContains d₁ "_id" = false := by
    rw [hd₁]
    by_cases hc : dictContains d "_id" = true
    · simp only [hid, ne_eq, not_false_eq_true, hc, and_self, if_true]
      rw [dictContains_dictSet_ne _ _ _ _ (Ne.symm hid2)]
      exact dictContains_dictRemove_self d "_id"
    · simp only [hc, and_false, if_false]
      simpa using hc
  have h₁other : ∀ k, k ≠ "_id" → k ≠ cfg.id_field →
      dictContains d₁ k = dictContains d k := by
    intro k hk1 hk2
    rw [hd₁]
    by_cases hc : dictContains d "_id" = true
    · simp only [hid, ne_eq, not_false_eq_true, hc, and_self, if_true]
      rw [dictContains_dictSet_ne _ _ _ _ hk2,
        dictContains_dictRemove_ne _ _ _ hk1]
    · simp [hc]
  obtain ⟨d₂, hd₂, hd₂k⟩ := remove_excl_fields_dict_keys cfg d₁
  refine ⟨serialize_entry_list d₂, ?_, ?_, ?_, ?_⟩
  · simp [hd₂, serialize_model_helper]
  · rw [dictContains_serialize_entry_list, hd₂k, h₁id]
    simp
  · intro f hf
    rw [dictContains_serialize_entry_list, hd₂k]
    have hcf : cfg.exclude_fields.contains f = true := List.elem_iff.mpr hf
    simp only [hcf, Bool.not_true, Bool.and_false]
  · intro k hk1 hk2
    rw [dictContains_serialize_entry_list, hd₂k, h₁other k hk1 hk2]



theorem prep_sequence_ok (cfg : Config) (xs : List Value)
    (h : ∀ x ∈ xs, x.isDict = true) :
    ∃ ys, prep_sequence cfg xs = .ok ys ∧ ys.length = xs.length := by
  induction xs with
  | nil => exact ⟨[], rfl, rfl⟩
  | cons x rest ih =>
    obtain ⟨ys, hys, hlen⟩ := ih fun y hy => h y (List.mem_cons_of_mem x hy)
    have hx := h x (List.mem_cons_self x rest)
    obtain ⟨d, rfl⟩ : ∃ d, x = Value.vDict d := by
      cases x <;> simp [Value.isDict] at hx ⊢
    unfold prep_sequence
    simp only [replace_id_dict, except_bind_ok, remove_excl_fields_dict, hys,
      except_pure_eq]
    exact ⟨_, rfl, by simp [hlen]⟩

theorem serialize_model_list_ok (cfg : Config) (xs : List Value)
    (h : ∀ x ∈ xs, x.isDict = true) :
    ∃ ys, serialize_model cfg (.vList xs) = .ok (.vList ys) ∧
      ys.length = xs.length := by
  obtain ⟨ys, hys, hlen⟩ := prep_sequence_ok cfg xs h
  refine ⟨ys.map serialize_model_helper, ?_, by simp [hlen]⟩
  simp [serialize_model, hys, serialize_model_helper, serialize_value_list_eq_map]

theorem intCeilDiv_bounds (a b : Int) (hb : 0 < b) :
    b * (intCeilDiv a b - 1) < a ∧ a ≤ b * intCeilDiv a b := by
  unfold intCeilDiv
  rw [if_pos hb]
  have h1 := Int.ediv_add_emod (-a) b
  have h2 := Int.emod_nonneg (-a) (by omega : b ≠ 0)
  have h3 := Int.emod_lt_of_pos (-a) hb
  constructor <;> nlinarith



theorem retrieve_list_spec (cfg : Config) (docs : List Value)
    (finds : Value → Value → Bool)
    (applySort : String × Int → List Value → List Value)
    (ps pn : Int)
    (h1 : cfg.page_query_arg ≠ cfg.page_size_query_arg)
    (h2 : cfg.sort_query_arg ≠ cfg.page_size_query_arg)
    (hps : 0 < ps) (hpn : 0 ≤ pn)
    (hdocs : ∀ x ∈ docs, x.isDict = true) :
    ∃ ds : List Value,
      retrieve_list cfg docs finds applySort
        [(cfg.page_size_query_arg, .vInt ps), (cfg.page_query_arg, .vInt pn)]
        none =
      .ok { data := .vList ds,
            size := ps,
            totalElements := ((docs.filter (finds (.vDict []))).length : Int),
            totalPages :=
              intCeilDiv ((docs.filter (finds (.vDict []))).length : Int) ps,
            number := pn,
            next_link := if ((docs.filter (finds (.vDict []))).length : Int) >
                ps * (pn + 1) then some (linkDict cfg (pn + 1) ps) else none,
            prev_link := if pn > 0 then some (linkDict cfg (pn - 1) ps)
              else none,
            first_link := if pn > 0 then some (linkDict cfg 0 ps) else none,
            last_link := if pn ≠
                intCeilDiv ((docs.filter (finds (.vDict []))).length : Int) ps
                  - 1 then
              some (linkDict cfg
                (intCeilDiv ((docs.filter (finds (.vDict []))).length : Int) ps
                  - 1) ps)
            else none } ∧
      (ds.length : Int) ≤ ps := by
  have e1 : (cfg.page_query_arg == cfg.page_size_query_arg) = false := by
    simp [h1]
  have e2 : (cfg.sort_query_arg == cfg.page_size_query_arg) = false := by
    simp [h2]
  have hps0 : ¬(ps = 0) := by omega
  have epair : (if (!(ps == 0) && !(pn == 0)) = true then
      ((ps * pn, ps) : Int × Int) else (0, ps)) = (ps * pn, ps) := by
    by_cases hpn0 : pn = 0
    · subst hpn0
      simp
    · simp [hps0, hpn0]
  have hskip : ¬(ps * pn < 0) := by
    have := mul_nonneg hps.le hpn
    omega
  unfold retrieve_list
  simp only [dictPopD, dictGet, dictRemove, List.filter_cons, List.filter_nil,
    beq_self_eq_true, if_true, bne_self_eq_false, e1, e2, bne,
    Bool.not_false, Bool.not_true, if_false, Option.getD_some, Option.getD_none,
    integerFieldTranslate, translate_iterable_to_single, sortFieldTranslate,
    get_query, get_query_entries, except_bind_ok, except_pure_eq, hps0,
    Bool.false_eq_true, epair, applySkipLimit, hskip]
  obtain ⟨ys, hys, hlen⟩ := serialize_model_list_ok cfg
    (List.take ps.natAbs
      (List.drop (ps * pn).toNat (List.filter (finds (Value.vDict [])) docs)))
    (fun x hx => hdocs x (List.mem_of_mem_filter
      (List.mem_of_mem_drop (List.mem_of_mem_take hx))))
  refine ⟨ys, ?_, ?_⟩
  · rw [hys, except_bind_ok]
  · have hle : ys.length ≤ ps.natAbs := hlen ▸ List.length_take_le _ _
    calc (ys.length : Int) ≤ (ps.natAbs : Int) := by exact_mod_cast hle
      _ = ps := Int.natAbs_of_nonneg hps.le

/-- A top-level sequence whose elements have all been dicts so far hits
`'_id' in None` as soon as it reaches a `None` element: with a truthy
`id_field` the membership test raises `TypeError`. -/
theorem prep_sequence_error_on_null (cfg : Config) (pre post : List Value)
    (hid : cfg.id_field ≠ "") (hpre : ∀ x ∈ pre, x.isDict = true) :
    prep_sequence cfg (pre ++ .vNull :: post) = .error .typeError := by
  induction pre with
  | nil =>
    have hrid : replace_id cfg .vNull = .error .typeError := by
      unfold replace_id
      simp [hid]
    simp [prep_sequence, hrid]
  | cons x rest ih =>
    have hx := hpre x (List.mem_cons_self x rest)
    obtain ⟨d, rfl⟩ : ∃ d, x = Value.vDict d := by
      cases x <;> simp [Value.isDict] at hx ⊢
    have hrest := ih fun y hy => hpre y (List.mem_cons_of_mem _ hy)
    simp only [List.cons_append, prep_sequence, replace_id_dict,
      except_bind_ok, remove_excl_fields_dict, List.append_eq, hrest,
      except_bind_error]


/-! ## Claim C3: malformed id values in query translation -/

/-- C3 counterexample: the claim says `_get_query` does not raise for a
non-string id value such as an integer, but `ObjectId(5)` raises
`TypeError`, which the `except InvalidId` handler does not catch, so
query translation propagates the error. -/
theorem c3_counterexample_int_id_raises :
    get_query defaultConfig (.vDict [("_id", .vInt 5)]) =
      .error .typeError := by
  simp +decide [get_query, get_query_entries, id_query_value,
    objectIdOfValue, defaultConfig]

/-- C3 amended: for every id-field value that is a *string* not
parseable as a 24-hex-character identifier the failure is caught
locally and the raw value is stored unchanged under the reserved
`'_id'` key; a non-string value such as an integer instead raises an
uncaught `TypeError`. -/
theorem c3_malformed_id_fallback (cfg : Config) (s : String)
    (h : ¬(s.length = 24 ∧ s.data.all isHexDigit = true)) :
    get_query cfg (.vDict [(cfg.id_field, .vStr s)]) =
      .ok (.vDict [("_id", .vStr s)]) ∧
    ∀ n : Int, get_query cfg (.vDict [(cfg.id_field, .vInt n)]) =
      .error .typeError := by
  constructor
  · have hb : (decide (s.length = 24) && s.data.all isHexDigit) = false := by
      by_cases h24 : s.length = 24
      · have hhex : ¬(s.data.all isHexDigit = true) := fun hh => h ⟨h24, hh⟩
        simp [h24, hhex]
      · simp [h24]
    simp [get_query, get_query_entries, id_query_value, objectIdOfValue, hb,
      dictSet, dictContains]
  · intro n
    simp [get_query, get_query_entries, id_query_value, objectIdOfValue]

/-- C3 witness: at the malformed string `"xyz"` the amended behaviour is
exhibited. -/
theorem c3_malformed_id_fallback_witness :
    ¬(("xyz" : String).length = 24 ∧ "xyz".data.all isHexDigit = true) ∧
    (get_query defaultConfig
        (.vDict [(defaultConfig.id_field, .vStr "xyz")]) =
      .ok (.vDict [("_id", .vStr "xyz")]) ∧
    ∀ n : Int, get_query defaultConfig
        (.vDict [(defaultConfig.id_field, .vInt n)]) =
      .error .typeError) :=
  ⟨by decide, c3_malformed_id_fallback defaultConfig "xyz" (by decide)⟩

/-! ## Claim C4: sort specification translation -/

/-- C4 counterexample: `"name,bogus"` is not a well-formed
`field,asc|desc` specification, yet `SortField._translate` accepts it
and returns direction `1` instead of raising a value error. -/
theorem c4_counterexample_bogus_direction_accepted :
    sortFieldTranslate (.vStr "name,bogus") = .ok (some ("name", 1)) := rfl

/-- C4 amended: translation raises a value error iff the argument is
neither `None` nor a string that splits on `','` into exactly two
chunks; any two-chunk string is accepted, with direction `-1` when the
lowercased second chunk is `'asc'` and `1` otherwise (so arbitrary
direction words are accepted, not only `desc`); `None` passes
through. -/
theorem c4_sort_translate_spec :
    (sortFieldTranslate .vNull = .ok none) ∧
    (∀ s f d, pySplitComma (pyLower s) = [f, d] →
      sortFieldTranslate (.vStr s) =
        .ok (some (f, if d == "asc" then -1 else 1))) ∧
    (∀ s, (pySplitComma (pyLower s)).length ≠ 2 →
      sortFieldTranslate (.vStr s) = .error .valueError) := by
  refine ⟨rfl, ?_, ?_⟩
  · intro s f d hsp
    simp [sortFieldTranslate, translate_iterable_to_single, hsp]
  · intro s h
    rw [show sortFieldTranslate (.vStr s) =
      (match pySplitComma (pyLower s) with
        | [field, dir] =>
          (Except.ok (some (field, if dir == "asc" then (-1 : Int) else 1)) :
            Except PyError (Option (String × Int)))
        | _ => Except.error .valueError) from rfl]
    rcases hsp : pySplitComma (pyLower s) with _ | ⟨f, _ | ⟨d, _ | ⟨e, r3⟩⟩⟩
    · rfl
    · rfl
    · simp [hsp] at h
    · rfl

/-- C4 witness: a valid specification parses (with its lowercasing),
and a comma-less string raises the value error. -/
theorem c4_sort_translate_spec_witness :
    (pySplitComma (pyLower "Name,ASC") = ["name", "asc"] ∧
      sortFieldTranslate (.vStr "Name,ASC") = .ok (some ("name", -1))) ∧
    ((pySplitComma (pyLower "name")).length ≠ 2 ∧
      sortFieldTranslate (.vStr "name") = .error .valueError) :=
  ⟨⟨by decide, c4_sort_translate_spec.2.1 "Name,ASC" "name" "asc" (by decide)⟩,
   ⟨by decide, c4_sort_translate_spec.2.2 "name" (by decide)⟩⟩

/-! ## Claim C5: regex-suffix stripping -/

/-- C5 counterexample: the claim says the suffix is stripped only from
the end of the key, leaving inner occurrences intact, but `str.replace`
removes every occurrence: the key `"nameRegexRegex"` translates to
`"name"`, and the predicted key `"nameRegex"` is absent from the
produced query. -/
theorem c5_counterexample_replace_all_occurrences :
    get_query defaultConfig (.vDict [("nameRegexRegex", .vStr "Jo")]) =
      .ok (.vDict [("name",
        .vDict [("$regex", .vStr "Jo"), ("$options", .vStr "i")])]) ∧
    dictGet [("name",
        Value.vDict [("$regex", Value.vStr "Jo"),
          ("$options", Value.vStr "i")])]
      "nameRegex" = none := by
  constructor
  · simp +decide [get_query, get_query_entries, is_regex_field,
      get_regex_query, defaultConfig, pyEndsWith, pyReplace, replaceAux,
      dictUpdate, dictSet, dictContains, pyStr]
  · rfl

/-- C5 amended: a non-id key ending with the configured regex suffix is
rewritten to `key.replace(suffix, '')` — removing *every* occurrence of
the suffix, not only the final one — and mapped to the case-insensitive
regex clause over the string form of the value; for a key such as
`"nameRegex"`, whose suffix occurs only at the end, this coincides with
stripping the suffix, giving exactly the spec example. -/
theorem c5_regex_query_spec (cfg : Config) (k : String) (v : Value)
    (hk : k ≠ cfg.id_field) (hreg : is_regex_field cfg k = true) :
    get_query cfg (.vDict [(k, v)]) =
      .ok (.vDict [(pyReplace k cfg.regex_suffix "",
        .vDict [("$regex", .vStr (pyStr v)), ("$options", .vStr "i")])]) ∧
    get_query defaultConfig (.vDict [("nameRegex", .vStr "Jo")]) =
      .ok (.vDict [("name",
        .vDict [("$regex", .vStr "Jo"), ("$options", .vStr "i")])]) := by
  constructor
  · simp [get_query, get_query_entries, hk, hreg, get_regex_query,
      dictUpdate, dictSet, dictContains]
  · simp +decide [get_query, get_query_entries, is_regex_field,
      get_regex_query, defaultConfig, pyEndsWith, pyReplace, replaceAux,
      dictUpdate, dictSet, dictContains, pyStr]

/-- C5 witness: the amended statement at the key `"tagRegex"` with an
integer value. -/
theorem c5_regex_query_spec_witness :
    ("tagRegex" ≠ defaultConfig.id_field ∧
      is_regex_field defaultConfig "tagRegex" = true) ∧
    (get_query defaultConfig (.vDict [("tagRegex", .vInt 7)]) =
      .ok (.vDict [("tag",
        .vDict [("$regex", .vStr "7"), ("$options", .vStr "i")])]) ∧
    get_query defaultConfig (.vDict [("nameRegex", .vStr "Jo")]) =
      .ok (.vDict [("name",
        .vDict [("$regex", .vStr "Jo"), ("$options", .vStr "i")])])) :=
  ⟨⟨by decide, by decide⟩,
   c5_regex_query_spec defaultConfig "tagRegex" (.vInt 7) (by decide)
     (by decide)⟩

/-! ## Claim C6: `None` handling in serialization -/

/-- C6 counterexample: a top-level list containing `None` makes
`_serialize_model` raise (`'_id' in None` is a `TypeError`), contrary
to the claim that serialization does not fail on sequences and
preserves `None` elements. -/
theorem c6_counterexample_null_in_sequence_raises :
    serialize_model defaultConfig (.vList [.vNull]) = .error .typeError :=
  rfl

/-- C6 amended: a top-level `None` serializes to the empty mapping, and
`None` elements inside sequences processed by the recursive helper are
preserved unchanged; but a *top-level* sequence runs the id-rename over
its elements, so with a truthy `id_field` a `None` element raises a
`TypeError` instead of being preserved. -/
theorem c6_serialize_null_handling (cfg : Config)
    (pre post xs : List Value) (hid : cfg.id_field ≠ "")
    (hpre : ∀ x ∈ pre, x.isDict = true) :
    serialize_model cfg .vNull = .ok (.vDict []) ∧
    serialize_model_helper (.vList (pre ++ .vNull :: post)) =
      .vList (pre.map serialize_model_helper ++
        .vNull :: post.map serialize_model_helper) ∧
    serialize_model cfg (.vList (pre ++ .vNull :: xs)) =
      .error .typeError := by
  refine ⟨rfl, ?_, ?_⟩
  · simp [serialize_model_helper, serialize_value_list_eq_map]
  · simp [serialize_model, prep_sequence_error_on_null cfg pre xs hid hpre]

/-- C6 witness: the amended statement at a singleton sequence. -/
theorem c6_serialize_null_handling_witness :
    (defaultConfig.id_field ≠ "" ∧
      ∀ x ∈ ([] : List Value), x.isDict = true) ∧
    (serialize_model defaultConfig .vNull = .ok (.vDict []) ∧
    serialize_model_helper (.vList ([] ++ .vNull :: [.vInt 3])) =
      .vList (List.map serialize_model_helper [] ++
        .vNull :: List.map serialize_model_helper [.vInt 3]) ∧
    serialize_model defaultConfig (.vList ([] ++ .vNull :: [])) =
      .error .typeError) :=
  ⟨⟨by decide, by decide⟩,
   c6_serialize_null_handling defaultConfig [] [.vInt 3] [] (by decide)
     (by decide)⟩

/-! ## Claim C8: id rename before exclusion and coercion -/

/-- C8: on every dict document, serialization is id-rename, then
exclusion, then recursive value coercion, in that order; the result
drops `'_id'` and every excluded field while leaving every other field
name unchanged; and the spec example document with `id_field = "id"`
and `exclude_fields = ("secret",)` serializes exactly as claimed. -/
theorem c8_rename_before_exclusion (cfg : Config) (d : List (String × Value))
    (hid : cfg.id_field ≠ "") (hid2 : cfg.id_field ≠ "_id") :
    (serialize_model cfg (.vDict d) = (do
      let m ← replace_id cfg (.vDict d)
      let m ← remove_excl_fields cfg m
      pure (serialize_model_helper m))) ∧
    (∃ d', serialize_model cfg (.vDict d) = .ok (.vDict d') ∧
      dictContains d' "_id" = false ∧
      (∀ f ∈ cfg.exclude_fields, dictContains d' f = false) ∧
      (∀ k, k ≠ "_id" → k ≠ cfg.id_field →
        dictContains d' k =
          (dictContains d k && !(cfg.exclude_fields.contains k)))) ∧
    serialize_model exampleConfig (.vDict exampleDoc) =
      .ok (.vDict [("name", .vStr "Joe"),
                   ("id", .vStr "507f191e810c19729de860ea")]) := by
  refine ⟨serialize_model_dict_order cfg d,
    serialize_model_dict_keys cfg d hid hid2, ?_⟩
  simp +decide [serialize_model, replace_id, remove_excl_fields,
    serialize_model_helper, serialize_entry_list, dictContains, dictGet,
    dictSet, dictRemove, Config.all_fields, pyStr, exampleConfig,
    exampleDoc, defaultConfig]

/-- C8 witness: the statement at the spec example configuration and
document. -/
theorem c8_rename_before_exclusion_witness :
    (exampleConfig.id_field ≠ "" ∧ exampleConfig.id_field ≠ "_id") ∧
    ((serialize_model exampleConfig (.vDict exampleDoc) = (do
      let m ← replace_id exampleConfig (.vDict exampleDoc)
      let m ← remove_excl_fields exampleConfig m
      pure (serialize_model_helper m))) ∧
    (∃ d', serialize_model exampleConfig (.vDict exampleDoc) =
        .ok (.vDict d') ∧
      dictContains d' "_id" = false ∧
      (∀ f ∈ exampleConfig.exclude_fields, dictContains d' f = false) ∧
      (∀ k, k ≠ "_id" → k ≠ exampleConfig.id_field →
        dictContains d' k =
          (dictContains exampleDoc k &&
           !(exampleConfig.exclude_fields.contains k)))) ∧
    serialize_model exampleConfig (.vDict exampleDoc) =
      .ok (.vDict [("name", .vStr "Joe"),
                   ("id", .vStr "507f191e810c19729de860ea")])) :=
  ⟨⟨by decide, by decide⟩,
   c8_rename_before_exclusion exampleConfig exampleDoc
     (by decide) (by decide)⟩

/-! ## Claim C9: `update` builds its query from `updates` -/

/-- C9: the documents selected by `update(filters, updates)` are those
matching the translation of `updates`; the `filters` argument is never
read, so the result is identical for any two `filters` values. -/
theorem c9_update_query_built_from_updates (cfg : Config)
    (docs : List Value) (finds : Value → Value → Bool)
    (f f' updates q : Value) (hq : get_query cfg updates = .ok q) :
    update cfg docs finds f updates = update cfg docs finds f' updates ∧
    update cfg docs finds f updates =
      (docs.filter (finds q)).mapM (fun doc => do
        let doc ← applyDocUpdate doc updates
        serialize_model cfg doc) := by
  refine ⟨rfl, ?_⟩
  unfold update
  rw [hq]
  simp only [except_bind_ok]

/-- C9 witness: a one-document store where the query really is built
from `updates`, for two different `filters` arguments. -/
theorem c9_update_query_built_from_updates_witness :
    (get_query defaultConfig (.vDict [("a", .vInt 2)]) =
      .ok (.vDict [("a", .vInt 2)])) ∧
    (update defaultConfig [.vDict [("a", .vInt 1)]] (fun _ _ => true)
        .vNull (.vDict [("a", .vInt 2)]) =
      update defaultConfig [.vDict [("a", .vInt 1)]] (fun _ _ => true)
        (.vStr "ignored") (.vDict [("a", .vInt 2)]) ∧
    update defaultConfig [.vDict [("a", .vInt 1)]] (fun _ _ => true)
        .vNull (.vDict [("a", .vInt 2)]) =
      (([.vDict [("a", .vInt 1)]] : List Value).filter
          ((fun _ _ => true) (Value.vDict [("a", Value.vInt 2)]))).mapM
        (fun doc => do
          let doc ← applyDocUpdate doc (.vDict [("a", .vInt 2)])
          serialize_model defaultConfig doc)) :=
  ⟨by simp +decide [get_query, get_query_entries, get_query_value,
      is_regex_field, pyEndsWith, defaultConfig, dictSet, dictContains],
   c9_update_query_built_from_updates defaultConfig
     [.vDict [("a", .vInt 1)]] (fun _ _ => true) .vNull (.vStr "ignored")
     (.vDict [("a", .vInt 2)]) (.vDict [("a", .vInt 2)])
     (by simp +decide [get_query, get_query_entries, get_query_value,
       is_regex_field, pyEndsWith, defaultConfig, dictSet, dictContains])⟩

/-! ## Claim C10: serialization mutates its argument in place -/

/-- C10: with the caller's dict modelled as a heap cell,
`_serialize_model` returns the very address it was given, and after the
call that address holds the serialized content: `'_id'` gone (when
`id_field` is configured to a caller-facing name), excluded fields
gone, and the stored value replaced by its serialized form — a mutated
alias, not a fresh copy. -/
theorem c10_serialize_mutates_in_place (cfg : Config) (a : Addr) (h : Heap)
    (d : List (String × Value)) (hd : h a = some (.vDict d))
    (hid : cfg.id_field ≠ "") (hid2 : cfg.id_field ≠ "_id") :
    ∃ v h', serialize_model_ref cfg a h = .ok (a, h') ∧
      h' a = some v ∧
      serialize_model cfg (.vDict d) = .ok v ∧
      ∃ d', v = .vDict d' ∧ dictContains d' "_id" = false ∧
        ∀ f ∈ cfg.exclude_fields, dictContains d' f = false := by
  obtain ⟨d', hser, hnid, hexcl, _⟩ :=
    serialize_model_dict_keys cfg d hid hid2
  refine ⟨.vDict d', heapSet h a (.vDict d'), ?_, ?_, hser,
    d', rfl, hnid, hexcl⟩
  · simp [serialize_model_ref, hd, hser]
  · simp [heapSet]

/-- C10 witness: a concrete one-cell heap. -/
theorem c10_serialize_mutates_in_place_witness :
    (exampleHeap 0 = some (.vDict mutationDoc) ∧
      userIdConfig.id_field ≠ "" ∧ userIdConfig.id_field ≠ "_id") ∧
    (∃ v h', serialize_model_ref userIdConfig 0 exampleHeap =
        .ok (0, h') ∧
      h' 0 = some v ∧
      serialize_model userIdConfig (.vDict mutationDoc) = .ok v ∧
      ∃ d', v = .vDict d' ∧ dictContains d' "_id" = false ∧
        ∀ f ∈ userIdConfig.exclude_fields, dictContains d' f = false) :=
  ⟨⟨rfl, by decide, by decide⟩,
   c10_serialize_mutates_in_place userIdConfig 0 exampleHeap mutationDoc
     rfl (by decide) (by decide)⟩

/-! ## Claim C1: pagination links -/

/-- C1: for every call with page size `ps > 0` and zero-based page
number `pn`, the link set follows the spec formulas exactly: `next`
present iff `count > ps * (pn + 1)` pointing at `pn + 1`; `prev` and
`first` present iff `pn > 0`, pointing at `pn - 1` and `0`; `last`
present iff `pn ≠ page_count - 1` pointing at `page_count - 1`; and
each present link is the mapping
`{page_query_arg: n, page_size_query_arg: ps}`. -/
theorem c1_retrieve_list_links (cfg : Config) (docs : List Value)
    (finds : Value → Value → Bool)
    (applySort : String × Int → List Value → List Value) (ps pn : Int)
    (h1 : cfg.page_query_arg ≠ cfg.page_size_query_arg)
    (h2 : cfg.sort_query_arg ≠ cfg.page_size_query_arg)
    (hps : 0 < ps) (hpn : 0 ≤ pn)
    (hdocs : ∀ x ∈ docs, x.isDict = true) :
    ∃ r, retrieve_list cfg docs finds applySort
        [(cfg.page_size_query_arg, .vInt ps), (cfg.page_query_arg, .vInt pn)]
        none = .ok r ∧
      r.totalPages = intCeilDiv r.totalElements ps ∧
      (r.next_link = if r.totalElements > ps * (pn + 1) then
          some (linkDict cfg (pn + 1) ps) else none) ∧
      (r.prev_link = if pn > 0 then some (linkDict cfg (pn - 1) ps)
        else none) ∧
      (r.first_link = if pn > 0 then some (linkDict cfg 0 ps) else none) ∧
      (r.last_link = if pn ≠ r.totalPages - 1 then
          some (linkDict cfg (r.totalPages - 1) ps) else none) ∧
      (∀ n m : Int, linkDict cfg n m =
        .vDict [(cfg.page_query_arg, .vInt n),
                (cfg.page_size_query_arg, .vInt m)]) := by
  obtain ⟨ds, hr, _⟩ :=
    retrieve_list_spec cfg docs finds applySort ps pn h1 h2 hps hpn hdocs
  refine ⟨_, hr, rfl, rfl, rfl, rfl, rfl, ?_⟩
  intro n m
  have e : (cfg.page_query_arg == cfg.page_size_query_arg) = false := by
    simp [h1]
  simp [linkDict, dictSet, dictContains, e]

/-- C1 witness: the spec pagination scenario `count = 11`, `ps = 2`,
`pn = 2` on an eleven-document store. -/
theorem c1_retrieve_list_links_witness :
    (defaultConfig.page_query_arg ≠ defaultConfig.page_size_query_arg ∧
      defaultConfig.sort_query_arg ≠ defaultConfig.page_size_query_arg ∧
      (0 : Int) < 2 ∧ (0 : Int) ≤ 2 ∧
      ∀ x ∈ List.replicate 11 (Value.vDict [("a", Value.vInt 1)]),
        x.isDict = true) ∧
    (∃ r, retrieve_list defaultConfig
        (List.replicate 11 (.vDict [("a", .vInt 1)]))
        (fun _ _ => true) (fun _ l => l)
        [(defaultConfig.page_size_query_arg, .vInt 2),
         (defaultConfig.page_query_arg, .vInt 2)] none = .ok r ∧
      r.totalPages = intCeilDiv r.totalElements 2 ∧
      (r.next_link = if r.totalElements > 2 * (2 + 1) then
          some (linkDict defaultConfig (2 + 1) 2) else none) ∧
      (r.prev_link = if (2 : Int) > 0 then
          some (linkDict defaultConfig (2 - 1) 2) else none) ∧
      (r.first_link = if (2 : Int) > 0 then
          some (linkDict defaultConfig 0 2) else none) ∧
      (r.last_link = if (2 : Int) ≠ r.totalPages - 1 then
          some (linkDict defaultConfig (r.totalPages - 1) 2) else none) ∧
      (∀ n m : Int, linkDict defaultConfig n m =
        .vDict [(defaultConfig.page_query_arg, .vInt n),
                (defaultConfig.page_size_query_arg, .vInt m)])) :=
  ⟨⟨by decide, by decide, by decide, by decide, by decide⟩,
   c1_retrieve_list_links defaultConfig
     (List.replicate 11 (.vDict [("a", .vInt 1)]))
     (fun _ _ => true) (fun _ l => l) 2 2
     (by decide) (by decide) (by decide) (by decide) (by decide)⟩

/-! ## Claim C2: totalPages is the exact ceiling of the full count -/

/-- C2: with `ps > 0`, the returned `totalPages` equals
`ceil(count / ps)` computed with exact division — characterized by
`ps * (totalPages - 1) < count ≤ ps * totalPages` — where `count`
(`totalElements`) is the number of *all* documents matching the
translated query, while the returned page itself holds at most `ps`
documents. -/
theorem c2_total_pages_exact_ceiling (cfg : Config) (docs : List Value)
    (finds : Value → Value → Bool)
    (applySort : String × Int → List Value → List Value) (ps pn : Int)
    (h1 : cfg.page_query_arg ≠ cfg.page_size_query_arg)
    (h2 : cfg.sort_query_arg ≠ cfg.page_size_query_arg)
    (hps : 0 < ps) (hpn : 0 ≤ pn)
    (hdocs : ∀ x ∈ docs, x.isDict = true) :
    ∃ r, retrieve_list cfg docs finds applySort
        [(cfg.page_size_query_arg, .vInt ps), (cfg.page_query_arg, .vInt pn)]
        none = .ok r ∧
      r.totalElements = ((docs.filter (finds (.vDict []))).length : Int) ∧
      r.totalPages = intCeilDiv r.totalElements ps ∧
      ps * (r.totalPages - 1) < r.totalElements ∧
      r.totalElements ≤ ps * r.totalPages ∧
      ∃ ds, r.data = .vList ds ∧ (ds.length : Int) ≤ ps := by
  obtain ⟨ds, hr, hlen⟩ :=
    retrieve_list_spec cfg docs finds applySort ps pn h1 h2 hps hpn hdocs
  exact ⟨_, hr, rfl, rfl,
    (intCeilDiv_bounds _ ps hps).1, (intCeilDiv_bounds _ ps hps).2,
    ds, rfl, hlen⟩

/-- C2 witness: `count = 11`, `ps = 2` gives `totalPages = 6` with a
two-document page. -/
theorem c2_total_pages_exact_ceiling_witness :
    (defaultConfig.page_query_arg ≠ defaultConfig.page_size_query_arg ∧
      defaultConfig.sort_query_arg ≠ defaultConfig.page_size_query_arg ∧
      (0 : Int) < 2 ∧ (0 : Int) ≤ 2 ∧
      ∀ x ∈ List.replicate 11 (Value.vDict [("a", Value.vInt 1)]),
        x.isDict = true) ∧
    (∃ r, retrieve_list defaultConfig
        (List.replicate 11 (.vDict [("a", .vInt 1)]))
        (fun _ _ => true) (fun _ l => l)
        [(defaultConfig.page_size_query_arg, .vInt 2),
         (defaultConfig.page_query_arg, .vInt 2)] none = .ok r ∧
      r.totalElements = (((List.replicate 11
          (Value.vDict [("a", Value.vInt 1)])).filter
        ((fun _ _ => true) (Value.vDict []))).length : Int) ∧
      r.totalPages = intCeilDiv r.totalElements 2 ∧
      2 * (r.totalPages - 1) < r.totalElements ∧
      r.totalElements ≤ 2 * r.totalPages ∧
      ∃ ds, r.data = .vList ds ∧ (ds.length : Int) ≤ 2) :=
  ⟨⟨by decide, by decide, by decide, by decide, by decide⟩,
   c2_total_pages_exact_ceiling defaultConfig
     (List.replicate 11 (.vDict [("a", .vInt 1)]))
     (fun _ _ => true) (fun _ l => l) 2 2
     (by decide) (by decide) (by decide) (by decide) (by decide)⟩

/-! ## Claim C7: `page_size = 0` reaches the division -/

/-- C7: `page_size > 0` is a caller precondition under which
`retrieve_list` completes without error; with an explicit
`page_size = 0` the call runs all the way to the page-count division
and fails with the division-by-zero error, with no silent default
substituted. -/
theorem c7_page_size_zero_division (cfg : Config) (docs : List Value)
    (finds : Value → Value → Bool)
    (applySort : String × Int → List Value → List Value) (ps pn : Int)
    (h1 : cfg.page_query_arg ≠ cfg.page_size_query_arg)
    (h2 : cfg.sort_query_arg ≠ cfg.page_size_query_arg)
    (hps : 0 < ps) (hpn : 0 ≤ pn)
    (hdocs : ∀ x ∈ docs, x.isDict = true) :
    retrieve_list cfg docs finds applySort
      [(cfg.page_size_query_arg, .vInt 0), (cfg.page_query_arg, .vInt pn)]
      none = .error .zeroDivisionError ∧
    ∃ r, retrieve_list cfg docs finds applySort
      [(cfg.page_size_query_arg, .vInt ps), (cfg.page_query_arg, .vInt pn)]
      none = .ok r := by
  constructor
  · have e1 : (cfg.page_query_arg == cfg.page_size_query_arg) = false := by
      simp [h1]
    have e2 : (cfg.sort_query_arg == cfg.page_size_query_arg) = false := by
      simp [h2]
    unfold retrieve_list
    simp only [dictPopD, dictGet, dictRemove, List.filter_cons,
      List.filter_nil, beq_self_eq_true, if_true, bne_self_eq_false, e1, e2,
      bne, Bool.not_false, Bool.not_true, if_false, Option.getD_some,
      Option.getD_none, integerFieldTranslate, translate_iterable_to_single,
      sortFieldTranslate, get_query, get_query_entries, except_bind_ok,
      except_pure_eq, Bool.false_eq_true, except_throw_eq]
  · obtain ⟨ds, hr, _⟩ :=
      retrieve_list_spec cfg docs finds applySort ps pn h1 h2 hps hpn hdocs
    exact ⟨_, hr⟩

/-- C7 witness: the zero page size fails with the division error while
page size `2` succeeds, on the same store. -/
theorem c7_page_size_zero_division_witness :
    (defaultConfig.page_query_arg ≠ defaultConfig.page_size_query_arg ∧
      defaultConfig.sort_query_arg ≠ defaultConfig.page_size_query_arg ∧
      (0 : Int) < 2 ∧ (0 : Int) ≤ 0 ∧
      ∀ x ∈ List.replicate 3 (Value.vDict [("a", Value.vInt 1)]),
        x.isDict = true) ∧
    (retrieve_list defaultConfig
        (List.replicate 3 (.vDict [("a", .vInt 1)]))
        (fun _ _ => true) (fun _ l => l)
        [(defaultConfig.page_size_query_arg, .vInt 0),
         (defaultConfig.page_query_arg, .vInt 0)] none =
      .error .zeroDivisionError ∧
    ∃ r, retrieve_list defaultConfig
        (List.replicate 3 (.vDict [("a", .vInt 1)]))
        (fun _ _ => true) (fun _ l => l)
        [(defaultConfig.page_size_query_arg, .vInt 2),
         (defaultConfig.page_query_arg, .vInt 0)] none = .ok r) :=
  ⟨⟨by decide, by decide, by decide, by decide, by decide⟩,
   c7_page_size_zero_division defaultConfig
     (List.replicate 3 (.vDict [("a", .vInt 1)]))
     (fun _ _ => true) (fun _ l => l) 2 0
     (by decide) (by decide) (by decide) (by decide) (by decide)⟩

end RipozoMongokit
